import Mathlib

set_option autoImplicit false

/-
  Shallow embedding of the LogVault client (src/index.ts).

  The client buffers structured log entries and ships them in batches to a
  remote endpoint.  JavaScript objects used as metadata maps are modelled as
  ordered association lists with first-match lookup; JavaScript truthiness of
  the values that actually flow through the client (strings, and the ids
  produced by the uuid library) is modelled explicitly, since the source uses
  the short-circuiting or-operator on them.  Generated uuids are modelled as
  an opaque constructor applied to a fresh counter: the uuid library returns a
  value distinct from every string and from every previously generated id.
-/

namespace LogVault

/-- A metadata value as it occurs in the client: a caller-supplied string or a
generated uuid.  Truthiness matches JavaScript: the empty string is falsy,
every other string and every uuid value is truthy. -/
inductive JsVal where
  | str (s : String)
  | uuid (n : Nat)
deriving DecidableEq

/-- JavaScript truthiness of a metadata value. -/
def JsVal.truthy : JsVal → Bool
  | .str s => s ≠ ""
  | .uuid _ => true

/-- A metadata object: ordered key-value pairs, first-match lookup. -/
abbrev Meta := List (String × JsVal)

/-- Property read obj.k: the first binding of the key, none when absent. -/
def getKey (m : Meta) (k : String) : Option JsVal :=
  match m with
  | [] => none
  | (k₁, v) :: rest => if k₁ = k then some v else getKey rest k

/-- Property write obj.k = v: replace the existing binding in place, else
append a new binding at the end, as JavaScript objects do. -/
def setKey (m : Meta) (k : String) (v : JsVal) : Meta :=
  match m with
  | [] => [(k, v)]
  | (k₁, v₁) :: rest => if k₁ = k then (k, v) :: rest else (k₁, v₁) :: setKey rest k v

/-- Property removal (the delete operator). -/
def delKey (m : Meta) (k : String) : Meta :=
  m.filter (fun p => p.1 ≠ k)

/-- Truthiness of obj.k where an absent key (undefined) is falsy. -/
def truthyOpt : Option JsVal → Bool
  | none => false
  | some v => v.truthy

/-- The identity fetched once from GET /validate. -/
structure SourceInfo where
  id : String
  name : String
  userId : String
deriving DecidableEq

/-- The client options after the constructor merges the defaults. -/
structure Options where
  batchSize : Nat
  flushInterval : Nat
  requestTimeout : Nat
  defaultSource : String
deriving DecidableEq

/-- The defaults merged in by the constructor. -/
def defaultOptions : Options :=
  { batchSize := 100, flushInterval := 5000, requestTimeout := 5000,
    defaultSource := "default-client" }

/-- A buffered log record.  The source field is a JsVal because the
source-or-metadata-or-resolved chain can select a raw metadata value. -/
structure LogEntry where
  timestamp : Nat
  source : JsVal
  level : String
  message : String
  metadata : Meta
deriving DecidableEq

/-- JavaScript a or-else b on an optional string: undefined and the empty
string fall through to b. -/
def jsOrS (a : Option String) (b : String) : String :=
  match a with
  | none => b
  | some s => if s = "" then b else s

/-- getSourceName: sourceInfo.name or defaultSource or the literal
unknown-source fallback, each step skipping falsy values. -/
def getSourceName (si : Option SourceInfo) (opts : Options) : String :=
  jsOrS (si.map SourceInfo.name) (jsOrS (some opts.defaultSource) "unknown-source")

/-- JavaScript a or-else b on an optional JsVal: undefined and falsy values
fall through to b. -/
def jsOrV (a : Option JsVal) (b : JsVal) : JsVal :=
  match a with
  | none => b
  | some v => if v.truthy then v else b

/-- The source field of a new entry: explicit argument, else metadata.source,
else getSourceName, each step skipping falsy values (line 140). -/
def sourceField (explicit : Option String) (md : Meta) (si : Option SourceInfo)
    (opts : Options) : JsVal :=
  jsOrV (explicit.map JsVal.str) (jsOrV (getKey md "source") (.str (getSourceName si opts)))

/-- metadata.requestId or uuidv4(): keep a truthy caller id, otherwise a
freshly generated uuid (line 145). -/
def requestIdVal (md : Meta) (fresh : Nat) : JsVal :=
  match getKey md "requestId" with
  | some v => if v.truthy then v else .uuid fresh
  | none => .uuid fresh

/-- Whether this log call consumes a generated uuid. -/
def consumesUuid (md : Meta) : Bool :=
  !truthyOpt (getKey md "requestId")

/-- Entry construction performed by log() (lines 137-157): build the record,
spread-copy the metadata with a requestId, delete a truthy metadata.source
from the copy, and attach sourceId when the resolved identity has a truthy
id. -/
def buildEntry (opts : Options) (si : Option SourceInfo) (fresh : Nat) (ts : Nat)
    (level message : String) (md : Meta) (explicit : Option String) : LogEntry :=
  let md₁ := setKey md "requestId" (requestIdVal md fresh)
  let md₂ := if truthyOpt (getKey md "source") then delKey md₁ "source" else md₁
  let md₃ :=
    match si with
    | some i => if i.id ≠ "" then setKey md₂ "sourceId" (.str i.id) else md₂
    | none => md₂
  { timestamp := ts
    source := sourceField explicit md si opts
    level := level
    message := message
    metadata := md₃ }

theorem getKey_setKey_self (m : Meta) (k : String) (v : JsVal) :
    getKey (setKey m k v) k = some v := by
  induction m with
  | nil => simp [setKey, getKey]
  | cons p rest ih =>
    obtain ⟨k₁, v₁⟩ := p
    by_cases h : k₁ = k
    · simp [setKey, getKey, h]
    · simp [setKey, getKey, h, ih]

theorem getKey_setKey_ne (m : Meta) (k k₂ : String) (v : JsVal) (h : k₂ ≠ k) :
    getKey (setKey m k v) k₂ = getKey m k₂ := by
  induction m with
  | nil => simp [setKey, getKey, Ne.symm h]
  | cons p rest ih =>
    obtain ⟨k₁, v₁⟩ := p
    by_cases hk : k₁ = k
    · subst hk
      simp [setKey, getKey, Ne.symm h]
    · simp [setKey, getKey, hk, ih]

theorem getKey_delKey_self (m : Meta) (k : String) :
    getKey (delKey m k) k = none := by
  induction m with
  | nil => rfl
  | cons p rest ih =>
    obtain ⟨k₁, v₁⟩ := p
    by_cases h : k₁ = k
    · simpa [delKey, List.filter_cons, getKey, h] using ih
    · simpa [delKey, List.filter_cons, getKey, h] using ih

theorem getKey_delKey_ne (m : Meta) (k k₂ : String) (h : k₂ ≠ k) :
    getKey (delKey m k) k₂ = getKey m k₂ := by
  induction m with
  | nil => rfl
  | cons p rest ih =>
    obtain ⟨k₁, v₁⟩ := p
    simp only [delKey, ne_eq, decide_not] at ih
    by_cases hk : k₁ = k
    · subst hk
      simp [delKey, List.filter_cons, getKey, Ne.symm h, ih]
    · by_cases hk₂ : k₁ = k₂
      · simp [delKey, List.filter_cons, getKey, hk, hk₂, h]
      · simp [delKey, List.filter_cons, getKey, hk, hk₂, ih]

/-- The requestId binding of the finished entry metadata is the value chosen
by requestIdVal: the later source-delete and sourceId-set steps touch other
keys only. -/
theorem getKey_buildEntry_requestId (opts : Options) (si : Option SourceInfo)
    (fresh ts : Nat) (level message : String) (md : Meta) (explicit : Option String) :
    getKey (buildEntry opts si fresh ts level message md explicit).metadata "requestId" =
      some (requestIdVal md fresh) := by
  unfold buildEntry
  have h₁ : getKey (setKey md "requestId" (requestIdVal md fresh)) "requestId" =
      some (requestIdVal md fresh) := getKey_setKey_self ..
  have hsrc : ("requestId" : String) ≠ "source" := by decide
  have hsid : ("requestId" : String) ≠ "sourceId" := by decide
  cases si with
  | none =>
    by_cases h : truthyOpt (getKey md "source") <;>
      simp [h, getKey_delKey_ne _ _ _ hsrc, h₁]
  | some i =>
    by_cases hid : i.id = "" <;>
      by_cases h : truthyOpt (getKey md "source") <;>
        simp [h, hid, getKey_delKey_ne _ _ _ hsrc, getKey_setKey_ne _ _ _ _ hsid, h₁]

/-- The mutable fields of a LogVaultClient instance.  started models that
sourceInfoPromise is non-null; fresh is the counter behind generated uuids;
clock supplies creation timestamps. -/
structure ClientState where
  buffer : List LogEntry
  timerArmed : Bool
  started : Bool
  sourceInfo : Option SourceInfo
  fresh : Nat
  clock : Nat
deriving DecidableEq

/-- Observable network and flush activity of one operation. -/
structure Effects where
  validates : Nat
  posts : Nat
  flushes : Nat
deriving DecidableEq

def Effects.zero : Effects := ⟨0, 0, 0⟩

def Effects.add (a b : Effects) : Effects :=
  ⟨a.validates + b.validates, a.posts + b.posts, a.flushes + b.flushes⟩

/-- Outcome of one POST /logs attempt: ok is any 2xx; err covers a non-2xx
status, a thrown transport error, and the timeout-triggered abort, all of
which reach the same catch block. -/
inductive SendResult where
  | ok
  | err (msg : String)
deriving DecidableEq

/-- initializeSourceInfo (lines 52-80): when the promise already exists it is
returned with no request; otherwise the single GET /validate is issued and
the promise recorded.  The second component counts validate requests. -/
def initSrc (st : ClientState) : ClientState × Nat :=
  if st.started then (st, 0)
  else ({ st with started := true }, 1)

/-- Completion of the validation promise: on a parsed 2xx body the identity
is stored; on failure the promise resolves null and sourceInfo stays as it
was. -/
def resolveDone (st : ClientState) (result : Option SourceInfo) : ClientState :=
  if st.started then
    match result with
    | some i => { st with sourceInfo := some i }
    | none => st
  else st

/-- The body of the try block viewed from the caller: a failing send raises
an error which the surrounding catch in flush converts into a restore. -/
def sendAttempt (send : SendResult) : Except String Unit :=
  match send with
  | .ok => .ok ()
  | .err m => .error m

/-- The await in flush (lines 96-99): when no identity is stored yet, make
sure resolution was at least started. -/
def ensureSrc (st : ClientState) : ClientState × Nat :=
  if st.sourceInfo.isNone then initSrc st else (st, 0)

/-- The await in log (lines 132-135): start resolution only when neither the
identity nor the promise exists. -/
def startIfNeeded (st : ClientState) : ClientState × Nat :=
  if st.sourceInfo.isNone && !st.started then initSrc st else (st, 0)

/-- flush (lines 93-129).  Empty buffer: return before any network activity.
Otherwise ensure source resolution was started, drain the buffer, and POST
the batch; during lists the entries appended while the send is in flight, so
they form the buffer at completion time.  The catch block swallows every
send error and re-inserts the drained batch at the head, truncated to 1000.
Every invocation counts one flush. -/
def flushStep (st : ClientState) (send : SendResult) (during : List LogEntry) :
    ClientState × Effects :=
  if st.buffer.isEmpty then (st, ⟨0, 0, 1⟩)
  else
    let p := ensureSrc st
    let batch := p.1.buffer
    match sendAttempt send with
    | .ok _ => ({ p.1 with buffer := during }, ⟨p.2, 1, 1⟩)
    | .error _ => ({ p.1 with buffer := (batch ++ during).take 1000 }, ⟨p.2, 1, 1⟩)

/-- log (lines 131-166): maybe start resolution, build the entry, append it,
and flush when the buffer has reached batchSize.  Returns the new state, the
effects, and the requestId read back from the entry metadata. -/
def logStep (opts : Options) (st : ClientState) (level message : String) (md : Meta)
    (explicit : Option String) (send : SendResult) (during : List LogEntry) :
    ClientState × Effects × Option JsVal :=
  let p := startIfNeeded st
  let entry := buildEntry opts p.1.sourceInfo p.1.fresh p.1.clock level message md explicit
  let st₂ := { p.1 with
    buffer := p.1.buffer ++ [entry]
    fresh := if consumesUuid md then p.1.fresh + 1 else p.1.fresh
    clock := p.1.clock + 1 }
  let ret := getKey entry.metadata "requestId"
  if opts.batchSize ≤ st₂.buffer.length then
    let q := flushStep st₂ send during
    (q.1, ⟨q.2.validates + p.2, q.2.posts, q.2.flushes⟩, ret)
  else
    (st₂, ⟨p.2, 0, 0⟩, ret)

/-- One tick of the interval timer: it can only run while the timer is armed
(clearInterval stops all further callbacks). -/
def tickStep (st : ClientState) (send : SendResult) (during : List LogEntry) :
    ClientState × Effects :=
  if st.timerArmed then flushStep st send during else (st, Effects.zero)

/-- close (lines 184-190): disarm the timer, then one final flush whose
completion is what close resolves with. -/
def closeStep (st : ClientState) (send : SendResult) (during : List LogEntry) :
    ClientState × Effects :=
  flushStep { st with timerArmed := false } send during

/-- The constructor: empty buffer, source resolution kicked off (one
validate request), then the timer armed. -/
def initClient : ClientState × Effects :=
  let st₀ : ClientState :=
    { buffer := [], timerArmed := false, started := false, sourceInfo := none,
      fresh := 0, clock := 0 }
  let p := initSrc st₀
  ({ p.1 with timerArmed := true }, ⟨p.2, 0, 0⟩)

/-- The events that can hit a constructed client: a log call (with the send
outcome and concurrent appends of any flush it triggers), a timer tick, a
close call, and the completion of the validation promise. -/
inductive Op where
  | logOp (level message : String) (md : Meta) (explicit : Option String)
      (send : SendResult) (during : List LogEntry)
  | tickOp (send : SendResult) (during : List LogEntry)
  | closeOp (send : SendResult) (during : List LogEntry)
  | resolveOp (result : Option SourceInfo)

def opStep (opts : Options) (st : ClientState) : Op → ClientState × Effects
  | .logOp level message md explicit send during =>
    let r := logStep opts st level message md explicit send during
    (r.1, r.2.1)
  | .tickOp send during => tickStep st send during
  | .closeOp send during => closeStep st send during
  | .resolveOp result => (resolveDone st result, Effects.zero)

def runTrace (opts : Options) (st : ClientState) : List Op → ClientState × Effects
  | [] => (st, Effects.zero)
  | op :: rest =>
    let p := opStep opts st op
    let q := runTrace opts p.1 rest
    (q.1, p.2.add q.2)

/-- A tiny object heap for the aliasing question: which object does each
statement of log write.  Objects are addressed by allocation order. -/
structure Store where
  objs : Nat → Meta
  next : Nat

def readObj (s : Store) (i : Nat) : Meta := s.objs i

def writeObj (s : Store) (i : Nat) (m : Meta) : Store :=
  { s with objs := fun j => if j = i then m else s.objs j }

def allocObj (s : Store) (m : Meta) : Store × Nat :=
  ({ objs := fun j => if j = s.next then m else s.objs j, next := s.next + 1 }, s.next)

/-- The metadata object manipulation of log (lines 143-157) at heap level:
the spread allocates a fresh object holding a copy of the caller metadata
with requestId set; the delete of source and the sourceId assignment are
addressed to that fresh object.  Returns the heap and the entry object. -/
def logMetaSteps (s : Store) (callerId : Nat) (si : Option SourceInfo) (fresh : Nat) :
    Store × Nat :=
  let md := readObj s callerId
  let a := allocObj s (setKey md "requestId" (requestIdVal md fresh))
  let s₁ := a.1
  let entryId := a.2
  let s₂ :=
    if truthyOpt (getKey md "source") then
      writeObj s₁ entryId (delKey (readObj s₁ entryId) "source")
    else s₁
  let s₃ :=
    match si with
    | some i =>
      if i.id ≠ "" then
        writeObj s₂ entryId (setKey (readObj s₂ entryId) "sourceId" (.str i.id))
      else s₂
    | none => s₂
  (s₃, entryId)

/-- The argument tuple of one log call: level, message, metadata, explicit
source. -/
abbrev LogArgs := String × String × Meta × Option String

/-- A sequence of log calls in which every triggered flush succeeds and no
entries arrive while a send is in flight. -/
def runLogsOk (opts : Options) (st : ClientState) : List LogArgs → ClientState
  | [] => st
  | a :: rest =>
    runLogsOk opts (logStep opts st a.1 a.2.1 a.2.2.1 a.2.2.2 .ok []).1 rest

theorem initSrc_frame (st : ClientState) :
    (initSrc st).1.buffer = st.buffer ∧ (initSrc st).1.sourceInfo = st.sourceInfo
    ∧ (initSrc st).1.fresh = st.fresh ∧ (initSrc st).1.clock = st.clock
    ∧ (initSrc st).1.timerArmed = st.timerArmed := by
  unfold initSrc
  split <;> simp

theorem ensureSrc_frame (st : ClientState) :
    (ensureSrc st).1.buffer = st.buffer ∧ (ensureSrc st).1.sourceInfo = st.sourceInfo
    ∧ (ensureSrc st).1.fresh = st.fresh ∧ (ensureSrc st).1.clock = st.clock
    ∧ (ensureSrc st).1.timerArmed = st.timerArmed := by
  unfold ensureSrc
  split
  · exact initSrc_frame st
  · simp

theorem startIfNeeded_frame (st : ClientState) :
    (startIfNeeded st).1.buffer = st.buffer ∧ (startIfNeeded st).1.sourceInfo = st.sourceInfo
    ∧ (startIfNeeded st).1.fresh = st.fresh ∧ (startIfNeeded st).1.clock = st.clock
    ∧ (startIfNeeded st).1.timerArmed = st.timerArmed := by
  unfold startIfNeeded
  split
  · exact initSrc_frame st
  · simp

theorem flushStep_empty (st : ClientState) (send : SendResult) (during : List LogEntry)
    (h : st.buffer = []) : flushStep st send during = (st, ⟨0, 0, 1⟩) := by
  simp [flushStep, h]

theorem flushStep_err_spec (st : ClientState) (msg : String) (during : List LogEntry)
    (h : st.buffer ≠ []) :
    (flushStep st (.err msg) during).1.buffer = (st.buffer ++ during).take 1000
    ∧ (flushStep st (.err msg) during).2.posts = 1
    ∧ (flushStep st (.err msg) during).2.flushes = 1 := by
  have he : st.buffer.isEmpty = false := by
    simpa using h
  simp [flushStep, he, sendAttempt, (ensureSrc_frame st).1]

theorem flushStep_ok_spec (st : ClientState) (during : List LogEntry)
    (h : st.buffer ≠ []) :
    (flushStep st .ok during).1.buffer = during
    ∧ (flushStep st .ok during).2.posts = 1 := by
  have he : st.buffer.isEmpty = false := by
    simpa using h
  simp [flushStep, he, sendAttempt]

theorem flushStep_fresh (st : ClientState) (send : SendResult) (during : List LogEntry) :
    (flushStep st send during).1.fresh = st.fresh := by
  have hf := ensureSrc_frame st
  by_cases he : st.buffer.isEmpty <;> cases send <;>
    simp [flushStep, he, sendAttempt, hf.2.2.1]

theorem flushStep_frame (st : ClientState) (send : SendResult) (during : List LogEntry) :
    (flushStep st send during).1.fresh = st.fresh
    ∧ (flushStep st send during).1.clock = st.clock
    ∧ (flushStep st send during).1.timerArmed = st.timerArmed := by
  have hf := ensureSrc_frame st
  by_cases he : st.buffer.isEmpty <;> cases send <;>
    simp [flushStep, he, sendAttempt, hf.2.2.1, hf.2.2.2.1, hf.2.2.2.2]

theorem flushStep_started (st : ClientState) (send : SendResult) (during : List LogEntry)
    (h : st.started = true) :
    (flushStep st send during).1.started = true
    ∧ (flushStep st send during).2.validates = 0 := by
  by_cases he : st.buffer.isEmpty <;> by_cases hn : st.sourceInfo.isNone <;> cases send <;>
    simp [flushStep, ensureSrc, initSrc, sendAttempt, he, hn, h]

theorem flushStep_flushes (st : ClientState) (send : SendResult) (during : List LogEntry) :
    (flushStep st send during).2.flushes = 1 := by
  by_cases he : st.buffer.isEmpty <;> cases send <;>
    simp [flushStep, he, sendAttempt]

theorem logStep_no_flush_buffer (opts : Options) (st : ClientState) (level message : String)
    (md : Meta) (explicit : Option String) (send : SendResult) (during : List LogEntry)
    (h : st.buffer.length + 1 < opts.batchSize) :
    (logStep opts st level message md explicit send during).1.buffer.length
      = st.buffer.length + 1 := by
  have hb := (startIfNeeded_frame st).1
  simp only [logStep]
  split
  · next hc =>
    exfalso
    rw [List.length_append, hb] at hc
    simp at hc
    omega
  · show ((startIfNeeded st).1.buffer ++ [_]).length = st.buffer.length + 1
    simp [hb]

theorem logStep_flush_ok_buffer (opts : Options) (st : ClientState) (level message : String)
    (md : Meta) (explicit : Option String) (h : opts.batchSize ≤ st.buffer.length + 1) :
    (logStep opts st level message md explicit .ok []).1.buffer.length = 0 := by
  have hb := (startIfNeeded_frame st).1
  simp only [logStep]
  split
  · show (flushStep _ .ok []).1.buffer.length = 0
    rw [(flushStep_ok_spec _ [] (by simp)).1]
    rfl
  · next hc =>
    exfalso
    apply hc
    rw [List.length_append, hb]
    simpa using h

theorem runLogsOk_below (opts : Options) (args : List LogArgs) (st : ClientState)
    (h : st.buffer.length + args.length < opts.batchSize) :
    (runLogsOk opts st args).buffer.length = st.buffer.length + args.length := by
  induction args generalizing st with
  | nil => simp [runLogsOk]
  | cons a rest ih =>
    have hlen : (a :: rest).length = rest.length + 1 := by simp
    have h₁ : st.buffer.length + 1 < opts.batchSize := by omega
    have h₂ := logStep_no_flush_buffer opts st a.1 a.2.1 a.2.2.1 a.2.2.2 .ok [] h₁
    have h₃ := ih (logStep opts st a.1 a.2.1 a.2.2.1 a.2.2.2 .ok []).1 (by omega)
    rw [runLogsOk, h₃, h₂]
    omega

theorem runLogsOk_reach (opts : Options) (args : List LogArgs) (st : ClientState)
    (h : st.buffer.length + args.length = opts.batchSize) (hne : args ≠ []) :
    (runLogsOk opts st args).buffer.length = 0 := by
  induction args generalizing st with
  | nil => exact absurd rfl hne
  | cons a rest ih =>
    cases rest with
    | nil =>
      have h₁ : opts.batchSize ≤ st.buffer.length + 1 := by
        simp at h
        omega
      have h₂ := logStep_flush_ok_buffer opts st a.1 a.2.1 a.2.2.1 a.2.2.2 h₁
      simpa [runLogsOk] using h₂
    | cons b rest₂ =>
      have hlen : (a :: b :: rest₂).length = rest₂.length + 2 := by simp
      have h₁ : st.buffer.length + 1 < opts.batchSize := by omega
      have h₂ := logStep_no_flush_buffer opts st a.1 a.2.1 a.2.2.1 a.2.2.2 .ok [] h₁
      rw [runLogsOk]
      exact ih _ (by simp at h ⊢; omega) (by simp)

theorem resolveDone_frame (st : ClientState) (result : Option SourceInfo) :
    (resolveDone st result).buffer = st.buffer
    ∧ (resolveDone st result).started = st.started
    ∧ (resolveDone st result).timerArmed = st.timerArmed := by
  unfold resolveDone
  split <;> cases result <;> simp

theorem opStep_started (opts : Options) (st : ClientState) (op : Op) (h : st.started = true) :
    (opStep opts st op).1.started = true ∧ (opStep opts st op).2.validates = 0 := by
  cases op with
  | logOp level message md explicit send during =>
    have hp : startIfNeeded st = (st, 0) := by
      simp [startIfNeeded, h]
    by_cases hcond : opts.batchSize ≤ st.buffer.length + 1
    · have hf := flushStep_started { st with
        buffer := st.buffer
          ++ [buildEntry opts st.sourceInfo st.fresh st.clock level message md explicit]
        fresh := if consumesUuid md then st.fresh + 1 else st.fresh
        clock := st.clock + 1 } send during (by simpa using h)
      simp [opStep, logStep, hp, hcond, hf.1, hf.2]
    · simp [opStep, logStep, hp, hcond, h]
  | tickOp send during =>
    by_cases ht : st.timerArmed
    · have hf := flushStep_started st send during h
      simp [opStep, tickStep, ht, hf.1, hf.2]
    · simp [opStep, tickStep, ht, h, Effects.zero]
  | closeOp send during =>
    have hf := flushStep_started { st with timerArmed := false } send during
      (by simpa using h)
    simp [opStep, closeStep, hf.1, hf.2]
  | resolveOp result =>
    simp [opStep, (resolveDone_frame st result).2.1, h, Effects.zero]

theorem runTrace_started (opts : Options) (ops : List Op) (st : ClientState)
    (h : st.started = true) :
    (runTrace opts st ops).1.started = true ∧ (runTrace opts st ops).2.validates = 0 := by
  induction ops generalizing st with
  | nil => simp [runTrace, Effects.zero, h]
  | cons op rest ih =>
    have h₁ := opStep_started opts st op h
    have h₂ := ih (opStep opts st op).1 h₁.1
    simp [runTrace, Effects.add, h₁.2, h₂.1, h₂.2]

theorem opStep_timer_off (opts : Options) (st : ClientState) (op : Op)
    (h : st.timerArmed = false) : (opStep opts st op).1.timerArmed = false := by
  cases op with
  | logOp level message md explicit send during =>
    have hp := (startIfNeeded_frame st).2.2.2.2
    simp only [opStep, logStep]
    split
    · show (flushStep _ send during).1.timerArmed = false
      rw [(flushStep_frame _ send during).2.2]
      show (startIfNeeded st).1.timerArmed = false
      rw [hp, h]
    · show (startIfNeeded st).1.timerArmed = false
      rw [hp, h]
  | tickOp send during =>
    simp [opStep, tickStep, h]
  | closeOp send during =>
    have := (flushStep_frame { st with timerArmed := false } send during).2.2
    simpa [opStep, closeStep] using this
  | resolveOp result =>
    simp [opStep, (resolveDone_frame st result).2.2, h]

theorem runTrace_timer_off (opts : Options) (ops : List Op) (st : ClientState)
    (h : st.timerArmed = false) : (runTrace opts st ops).1.timerArmed = false := by
  induction ops generalizing st with
  | nil => simpa [runTrace]
  | cons op rest ih =>
    exact ih (opStep opts st op).1 (opStep_timer_off opts st op h)

theorem jsOrV_falsy (a : Option JsVal) (b : JsVal) (h : truthyOpt a = false) :
    jsOrV a b = b := by
  cases a with
  | none => rfl
  | some v =>
    simp [truthyOpt] at h
    simp [jsOrV, h]

theorem jsOrV_truthy (v b : JsVal) (h : v.truthy = true) : jsOrV (some v) b = v := by
  simp [jsOrV, h]

theorem jsOrS_truthy (s b : String) (h : s ≠ "") : jsOrS (some s) b = s := by
  simp [jsOrS, h]

/-- Concrete material for witnesses and counterexamples. -/
def demoEntry : LogEntry :=
  { timestamp := 0, source := .str "app", level := "info", message := "m", metadata := [] }

def demoEntry₂ : LogEntry :=
  { timestamp := 1, source := .str "app", level := "info", message := "n", metadata := [] }

def demoState : ClientState :=
  { buffer := [demoEntry], timerArmed := true, started := true, sourceInfo := none,
    fresh := 0, clock := 2 }

/-- A buffer of 1001 entries: reachable, for example, after sustained send
failure has filled the buffer to the 1000 cap and one further log call has
appended entry 1001 before its threshold flush drains them. -/
def overfullState : ClientState :=
  { buffer := List.replicate 1001 demoEntry, timerArmed := true, started := true,
    sourceInfo := none, fresh := 0, clock := 0 }

def demoStore : Store :=
  { objs := fun j => if j = 0 then [("source", .str "x"), ("k", .str "v")] else [], next := 1 }

/-- Claim C1: for every flush whose send fails, the failed batch is
re-inserted at the head of the buffer, placed before any entries appended
during the failed send attempt, and the result is truncated from the tail
(newest entries dropped) so its length never exceeds 1000. -/
theorem c1_failed_flush_restores_batch_at_head (st : ClientState) (msg : String)
    (during : List LogEntry) (h : st.buffer ≠ []) :
    (flushStep st (.err msg) during).1.buffer = (st.buffer ++ during).take 1000
    ∧ (flushStep st (.err msg) during).1.buffer.length ≤ 1000
    ∧ (st.buffer.length ≤ 1000 →
        (flushStep st (.err msg) during).1.buffer.take st.buffer.length = st.buffer) := by
  have hs := flushStep_err_spec st msg during h
  refine ⟨hs.1, ?_, ?_⟩
  · rw [hs.1, List.length_take]
    exact min_le_left 1000 _
  · intro hle
    rw [hs.1, List.take_take, Nat.min_eq_left hle, List.take_left]

theorem c1_witness :
    demoState.buffer ≠ []
    ∧ (flushStep demoState (.err "boom") [demoEntry₂]).1.buffer
        = (demoState.buffer ++ [demoEntry₂]).take 1000
    ∧ (flushStep demoState (.err "boom") [demoEntry₂]).1.buffer.length ≤ 1000
    ∧ (flushStep demoState (.err "boom") [demoEntry₂]).1.buffer.take demoState.buffer.length
        = demoState.buffer := by
  have h : demoState.buffer ≠ [] := by simp [demoState]
  have hc := c1_failed_flush_restores_batch_at_head demoState "boom" [demoEntry₂] h
  exact ⟨h, hc.1, hc.2.1, hc.2.2 (by decide)⟩

/-- Claim C2 counterexample: a failing flush of a 1001-entry batch with no
concurrent appends leaves only 1000 entries in the buffer, so the post-flush
length does not equal the pre-flush batch size and one entry is lost. -/
theorem c2_counterexample :
    overfullState.buffer ≠ []
    ∧ (flushStep overfullState (.err "boom") []).1.buffer.length
        ≠ overfullState.buffer.length := by
  have hl : overfullState.buffer.length = 1001 :=
    List.length_replicate 1001 demoEntry
  have h : overfullState.buffer ≠ [] := by
    apply List.ne_nil_of_length_pos
    omega
  refine ⟨h, ?_⟩
  rw [(flushStep_err_spec overfullState "boom" [] h).1, List.append_nil, List.length_take, hl]
  omega

/-- Claim C2 (amended): for every flush of a non-empty buffer whose send
fails, with no concurrent appends, the buffer afterwards is the first 1000
entries of the drained batch — all of it when the batch held at most 1000
entries.  The send was attempted (one POST) and genuinely raised inside the
try block, and flush still returns a plain state: the error is swallowed by
the catch, never propagated. -/
theorem c2_failed_flush_restores_batch (st : ClientState) (msg : String)
    (h : st.buffer ≠ []) :
    (flushStep st (.err msg) []).1.buffer = st.buffer.take 1000
    ∧ (flushStep st (.err msg) []).1.buffer.length = min 1000 st.buffer.length
    ∧ (st.buffer.length ≤ 1000 → (flushStep st (.err msg) []).1.buffer = st.buffer)
    ∧ (flushStep st (.err msg) []).2.posts = 1
    ∧ sendAttempt (.err msg) = Except.error msg := by
  have hs := flushStep_err_spec st msg [] h
  have h₀ : (flushStep st (.err msg) []).1.buffer = st.buffer.take 1000 := by
    rw [hs.1]
    simp
  refine ⟨h₀, ?_, ?_, hs.2.1, rfl⟩
  · rw [h₀, List.length_take]
  · intro hle
    rw [h₀]
    exact List.take_of_length_le hle

theorem c2_witness :
    demoState.buffer ≠ []
    ∧ (flushStep demoState (.err "boom") []).1.buffer = demoState.buffer
    ∧ (flushStep demoState (.err "boom") []).2.posts = 1 := by
  have h : demoState.buffer ≠ [] := by simp [demoState]
  have hc := c2_failed_flush_restores_batch demoState "boom" h
  exact ⟨h, hc.2.2.1 (by decide), hc.2.2.2.1⟩

/-- Claim C3: starting from an empty buffer, with every send succeeding and
no concurrent appends, the buffer length after a sequence of log calls is
the call count while that count is below batchSize, and zero at the call
that reaches it; and flush on an empty buffer makes no network request and
leaves the state unchanged. -/
theorem c3_log_buffer_growth (opts : Options) (args : List LogArgs) (st : ClientState)
    (h₀ : st.buffer = []) (hb : 1 ≤ opts.batchSize) (hlen : args.length ≤ opts.batchSize) :
    ((runLogsOk opts st args).buffer.length
        = if args.length < opts.batchSize then args.length else 0)
    ∧ ∀ st₂ send during, st₂.buffer = [] → flushStep st₂ send during = (st₂, ⟨0, 0, 1⟩) := by
  refine ⟨?_, fun st₂ send during h₂ => flushStep_empty st₂ send during h₂⟩
  by_cases hlt : args.length < opts.batchSize
  · rw [if_pos hlt]
    have hr := runLogsOk_below opts args st (by rw [h₀]; simpa using hlt)
    rw [hr, h₀]
    simp
  · rw [if_neg hlt]
    have heq : args.length = opts.batchSize := le_antisymm hlen (Nat.le_of_not_lt hlt)
    have hne : args ≠ [] := by
      intro hnil
      rw [hnil] at heq
      simp at heq
      omega
    exact runLogsOk_reach opts args st (by rw [h₀]; simpa using heq) hne

theorem c3_witness :
    ((runLogsOk { defaultOptions with batchSize := 3 } initClient.1
        [("info", "a", [], none), ("info", "b", [], none), ("info", "c", [], none)]).buffer.length
      = if (3 : Nat) < 3 then 3 else 0)
    ∧ (runLogsOk { defaultOptions with batchSize := 3 } initClient.1
        [("info", "a", [], none), ("info", "b", [], none)]).buffer.length = 2
    ∧ flushStep initClient.1 .ok [] = (initClient.1, ⟨0, 0, 1⟩) := by
  have h₃ := c3_log_buffer_growth { defaultOptions with batchSize := 3 }
    [("info", "a", [], none), ("info", "b", [], none), ("info", "c", [], none)]
    initClient.1 (by decide) (by decide) (by decide)
  have h₂ := c3_log_buffer_growth { defaultOptions with batchSize := 3 }
    [("info", "a", [], none), ("info", "b", [], none)]
    initClient.1 (by decide) (by decide) (by decide)
  refine ⟨h₃.1, ?_, h₃.2 initClient.1 .ok [] (by decide)⟩
  have := h₂.1
  simpa using this

/-- Claim C4 counterexample: an explicitly supplied empty-string source does
not win; the metadata source is used instead, because the chain tests
JavaScript truthiness rather than presence. -/
theorem c4_counterexample :
    (buildEntry defaultOptions none 0 0 "info" "m" [("source", JsVal.str "meta-src")]
        (some "")).source = JsVal.str "meta-src"
    ∧ JsVal.str "meta-src" ≠ JsVal.str "" := ⟨by decide, by decide⟩

/-- Claim C4 (amended): the source of every built entry follows the truthy
precedence chain: a non-empty explicit argument wins; otherwise a truthy
metadata source; otherwise a non-empty resolved source name; otherwise a
non-empty configured default source; otherwise the literal unknown-source
fallback. -/
theorem c4_source_precedence (opts : Options) (si : Option SourceInfo) (md : Meta)
    (explicit : Option String) (fresh ts : Nat) (level message : String) :
    ((buildEntry opts si fresh ts level message md explicit).source
        = sourceField explicit md si opts)
    ∧ (∀ s, explicit = some s → s ≠ "" → sourceField explicit md si opts = .str s)
    ∧ (truthyOpt (explicit.map JsVal.str) = false →
        ∀ v, getKey md "source" = some v → v.truthy = true →
          sourceField explicit md si opts = v)
    ∧ (truthyOpt (explicit.map JsVal.str) = false →
        truthyOpt (getKey md "source") = false →
        ∀ i, si = some i → i.name ≠ "" → sourceField explicit md si opts = .str i.name)
    ∧ (truthyOpt (explicit.map JsVal.str) = false →
        truthyOpt (getKey md "source") = false →
        (∀ i, si = some i → i.name = "") → opts.defaultSource ≠ "" →
        sourceField explicit md si opts = .str opts.defaultSource)
    ∧ (truthyOpt (explicit.map JsVal.str) = false →
        truthyOpt (getKey md "source") = false →
        (∀ i, si = some i → i.name = "") → opts.defaultSource = "" →
        sourceField explicit md si opts = .str "unknown-source") := by
  refine ⟨rfl, ?_, ?_, ?_, ?_, ?_⟩
  · intro s hs hne
    subst hs
    exact jsOrV_truthy _ _ (by simp [JsVal.truthy, hne])
  · intro hE v hv htr
    unfold sourceField
    rw [jsOrV_falsy _ _ hE, hv, jsOrV_truthy _ _ htr]
  · intro hE hM i hsi hne
    subst hsi
    unfold sourceField
    rw [jsOrV_falsy _ _ hE, jsOrV_falsy _ _ hM]
    simp [getSourceName, jsOrS_truthy _ _ hne]
  · intro hE hM hname hd
    unfold sourceField
    rw [jsOrV_falsy _ _ hE, jsOrV_falsy _ _ hM]
    cases si with
    | none => simp [getSourceName, jsOrS, hd]
    | some i => simp [getSourceName, jsOrS, hname i rfl, hd]
  · intro hE hM hname hd
    unfold sourceField
    rw [jsOrV_falsy _ _ hE, jsOrV_falsy _ _ hM]
    cases si with
    | none => simp [getSourceName, jsOrS, hd]
    | some i => simp [getSourceName, jsOrS, hname i rfl, hd]

theorem c4_witness :
    sourceField (some "ex") [("source", JsVal.str "ms")] none defaultOptions = JsVal.str "ex"
    ∧ sourceField none [("source", JsVal.str "ms")] none defaultOptions = JsVal.str "ms"
    ∧ sourceField none [] (some ⟨"i1", "api", "u1"⟩) defaultOptions = JsVal.str "api"
    ∧ sourceField none [] none defaultOptions = JsVal.str "default-client"
    ∧ sourceField none [] none { defaultOptions with defaultSource := "" }
        = JsVal.str "unknown-source" := by
  refine ⟨?_, ?_, ?_, ?_, ?_⟩
  · exact (c4_source_precedence defaultOptions none [("source", JsVal.str "ms")]
      (some "ex") 0 0 "info" "m").2.1 "ex" rfl (by decide)
  · exact (c4_source_precedence defaultOptions none [("source", JsVal.str "ms")]
      none 0 0 "info" "m").2.2.1 (by decide) (JsVal.str "ms") (by decide) (by decide)
  · exact (c4_source_precedence defaultOptions (some ⟨"i1", "api", "u1"⟩) [] none 0 0
      "info" "m").2.2.2.1 (by decide) (by decide) ⟨"i1", "api", "u1"⟩ rfl (by decide)
  · exact (c4_source_precedence defaultOptions none [] none 0 0
      "info" "m").2.2.2.2.1 (by decide) (by decide) (fun i hi => nomatch hi) (by decide)
  · exact (c4_source_precedence { defaultOptions with defaultSource := "" } none [] none 0 0
      "info" "m").2.2.2.2.2 (by decide) (by decide) (fun i hi => nomatch hi) (by decide)

/-- Claim C5 counterexample: a caller-supplied empty-string requestId is not
preserved verbatim; it is falsy, so a freshly generated id replaces it. -/
theorem c5_counterexample :
    getKey (buildEntry defaultOptions none 7 0 "info" "m" [("requestId", JsVal.str "")]
        none).metadata "requestId" = some (JsVal.uuid 7)
    ∧ some (JsVal.uuid 7) ≠ some (JsVal.str "") := ⟨by decide, by decide⟩

/-- Claim C5 (amended): every built entry has a requestId in its metadata; a
truthy caller-supplied requestId is preserved verbatim; a falsy or absent
one is replaced by the uuid generated from the current counter, and the
counter then advances so later generated ids are distinct; log returns the
requestId read from the entry metadata. -/
theorem c5_requestId_policy (opts : Options) (st : ClientState) (level message : String)
    (md : Meta) (explicit : Option String) (send : SendResult) (during : List LogEntry) :
    (getKey (buildEntry opts st.sourceInfo st.fresh st.clock level message md
        explicit).metadata "requestId").isSome = true
    ∧ (∀ v, getKey md "requestId" = some v → v.truthy = true →
        getKey (buildEntry opts st.sourceInfo st.fresh st.clock level message md
            explicit).metadata "requestId" = some v)
    ∧ (truthyOpt (getKey md "requestId") = false →
        getKey (buildEntry opts st.sourceInfo st.fresh st.clock level message md
            explicit).metadata "requestId" = some (.uuid st.fresh)
        ∧ (logStep opts st level message md explicit send during).1.fresh = st.fresh + 1)
    ∧ (logStep opts st level message md explicit send during).2.2
        = getKey (buildEntry opts st.sourceInfo st.fresh st.clock level message md
            explicit).metadata "requestId" := by
  have hframe := startIfNeeded_frame st
  have hbase := getKey_buildEntry_requestId opts st.sourceInfo st.fresh st.clock
    level message md explicit
  refine ⟨?_, ?_, ?_, ?_⟩
  · rw [hbase]
    rfl
  · intro v hv htr
    rw [hbase]
    simp [requestIdVal, hv, htr]
  · intro hfalse
    have hc : consumesUuid md = true := by simp [consumesUuid, hfalse]
    constructor
    · rw [hbase]
      cases hgk : getKey md "requestId" with
      | none => simp [requestIdVal, hgk]
      | some v =>
        rw [hgk] at hfalse
        simp only [truthyOpt] at hfalse
        simp [requestIdVal, hgk, hfalse]
    · by_cases hcond : opts.batchSize ≤ (startIfNeeded st).1.buffer.length + 1 <;>
        simp [logStep, flushStep_fresh, hcond, hc, hframe.2.2.1]
  · simp only [logStep]
    split <;> simp [hframe.2.1, hframe.2.2.1, hframe.2.2.2.1]

theorem c5_witness :
    getKey (buildEntry defaultOptions initClient.1.sourceInfo initClient.1.fresh
        initClient.1.clock "info" "m" [("requestId", JsVal.str "rid")] none).metadata
      "requestId" = some (JsVal.str "rid")
    ∧ getKey (buildEntry defaultOptions initClient.1.sourceInfo initClient.1.fresh
        initClient.1.clock "info" "m" [] none).metadata "requestId"
      = some (JsVal.uuid initClient.1.fresh)
    ∧ (logStep defaultOptions initClient.1 "info" "m" [] none .ok []).1.fresh
      = initClient.1.fresh + 1 := by
  refine ⟨?_, ?_, ?_⟩
  · exact (c5_requestId_policy defaultOptions initClient.1 "info" "m"
      [("requestId", JsVal.str "rid")] none .ok []).2.1 (JsVal.str "rid")
      (by decide) (by decide)
  · exact ((c5_requestId_policy defaultOptions initClient.1 "info" "m" [] none .ok
      []).2.2.1 (by decide)).1
  · exact ((c5_requestId_policy defaultOptions initClient.1 "info" "m" [] none .ok
      []).2.2.1 (by decide)).2

/-- Claim C6 counterexample: a caller-supplied empty-string source value is
falsy, so the delete guard skips and the key source survives in the entry
metadata. -/
theorem c6_counterexample :
    getKey (buildEntry defaultOptions none 0 0 "info" "m" [("source", JsVal.str "")]
        none).metadata "source" = some (JsVal.str "") := by decide

/-- Claim C6 (amended): when the caller supplied a truthy source value inside
metadata, the built entry metadata does not contain the key source — it was
extracted and removed. -/
theorem c6_source_removed (opts : Options) (si : Option SourceInfo) (fresh ts : Nat)
    (level message : String) (md : Meta) (explicit : Option String)
    (h : truthyOpt (getKey md "source") = true) :
    getKey (buildEntry opts si fresh ts level message md explicit).metadata "source"
      = none := by
  unfold buildEntry
  have hne : ("source" : String) ≠ "sourceId" := by decide
  cases si with
  | none => simp [h, getKey_delKey_self]
  | some i =>
    by_cases hid : i.id = "" <;>
      simp [h, hid, getKey_setKey_ne _ _ _ _ hne, getKey_delKey_self]

theorem c6_witness :
    getKey (buildEntry defaultOptions none 0 0 "info" "m"
        [("source", JsVal.str "payments"), ("k", JsVal.str "v")] none).metadata "source"
      = none :=
  c6_source_removed defaultOptions none 0 0 "info" "m"
    [("source", JsVal.str "payments"), ("k", JsVal.str "v")] none (by decide)

/-- Claim C7: over every trace of operations on a constructed client, at most
one GET /validate request is ever issued: the constructor triggers the only
one, every later or concurrent path reuses the recorded promise, and a
failed resolution is never retried for the lifetime of the client. -/
theorem c7_validate_at_most_once (opts : Options) (ops : List Op) :
    (initClient.2.add (runTrace opts initClient.1 ops).2).validates ≤ 1 := by
  have h₂ := runTrace_started opts ops initClient.1 rfl
  have h₃ : initClient.2.validates = 1 := rfl
  show initClient.2.validates + (runTrace opts initClient.1 ops).2.validates ≤ 1
  rw [h₂.2, h₃]

/-- Claim C8: close disarms the timer and issues exactly one final flush,
returning that flush attempt as its result; a disarmed timer tick is a
complete no-op, and the timer stays disarmed over every trace of operations
after close, so it fires no further ticks. -/
theorem c8_close_semantics (opts : Options) (st : ClientState) (send : SendResult)
    (during : List LogEntry) :
    (closeStep st send during).2.flushes = 1
    ∧ (closeStep st send during).1.timerArmed = false
    ∧ (∀ st₂ send₂ during₂, st₂.timerArmed = false →
        tickStep st₂ send₂ during₂ = (st₂, Effects.zero))
    ∧ ∀ ops, (runTrace opts (closeStep st send during).1 ops).1.timerArmed = false := by
  have harm : (closeStep st send during).1.timerArmed = false := by
    have hf := (flushStep_frame { st with timerArmed := false } send during).2.2
    simpa [closeStep] using hf
  refine ⟨flushStep_flushes _ send during, harm, ?_, ?_⟩
  · intro st₂ send₂ during₂ h₂
    simp [tickStep, h₂]
  · intro ops
    exact runTrace_timer_off opts ops _ harm

theorem c8_witness :
    (closeStep demoState .ok []).2.flushes = 1
    ∧ (closeStep demoState .ok []).1.timerArmed = false
    ∧ tickStep (closeStep demoState .ok []).1 .ok [] = ((closeStep demoState .ok []).1,
        Effects.zero)
    ∧ (runTrace defaultOptions (closeStep demoState .ok []).1
        [.tickOp .ok [], .tickOp (.err "x") []]).1.timerArmed = false := by
  obtain ⟨h₁, h₂, h₃, h₄⟩ := c8_close_semantics defaultOptions demoState .ok []
  exact ⟨h₁, h₂, h₃ _ .ok [] h₂, h₄ _⟩

/-- Claim C9 counterexample: a resolved SourceInfo whose id is the empty
string is falsy, so no sourceId key is attached to the entry metadata. -/
theorem c9_counterexample :
    getKey (buildEntry defaultOptions (some ⟨"", "api-name", "u1"⟩) 0 0 "info" "m" []
        none).metadata "sourceId" = none := by decide

/-- Claim C9 (amended): for every log call made after the resolver produced a
SourceInfo with a truthy (non-empty) id, the built entry metadata contains
sourceId holding that id. -/
theorem c9_sourceId_attached (opts : Options) (i : SourceInfo) (fresh ts : Nat)
    (level message : String) (md : Meta) (explicit : Option String) (h : i.id ≠ "") :
    getKey (buildEntry opts (some i) fresh ts level message md explicit).metadata "sourceId"
      = some (JsVal.str i.id) := by
  unfold buildEntry
  by_cases hs : truthyOpt (getKey md "source") <;>
    simp [hs, h, getKey_setKey_self]

theorem c9_witness :
    getKey (buildEntry defaultOptions (some ⟨"id9", "api", "u1"⟩) 0 0 "info" "m"
        [("k", JsVal.str "v")] none).metadata "sourceId" = some (JsVal.str "id9") :=
  c9_sourceId_attached defaultOptions ⟨"id9", "api", "u1"⟩ 0 0 "info" "m"
    [("k", JsVal.str "v")] none (by decide)

/-- Claim C10: log never mutates the caller-supplied metadata object: the
entry metadata lives in a freshly allocated object holding a copy, the
source removal and the requestId and sourceId insertions are addressed to
that object only, and the caller object reads back unchanged. -/
theorem c10_caller_metadata_preserved (s : Store) (callerId : Nat) (si : Option SourceInfo)
    (fresh : Nat) (opts : Options) (ts : Nat) (level message : String)
    (explicit : Option String) (h : callerId < s.next) :
    readObj (logMetaSteps s callerId si fresh).1 callerId = readObj s callerId
    ∧ (logMetaSteps s callerId si fresh).2 ≠ callerId
    ∧ readObj (logMetaSteps s callerId si fresh).1 (logMetaSteps s callerId si fresh).2
        = (buildEntry opts si fresh ts level message (readObj s callerId)
            explicit).metadata := by
  have hne : callerId ≠ s.next := Nat.ne_of_lt h
  refine ⟨?_, ?_, ?_⟩
  · cases si with
    | none =>
      by_cases hs : truthyOpt (getKey (s.objs callerId) "source") <;>
        simp [logMetaSteps, allocObj, writeObj, readObj, hs, hne]
    | some i =>
      by_cases hs : truthyOpt (getKey (s.objs callerId) "source") <;>
        by_cases hid : i.id = "" <;>
          simp [logMetaSteps, allocObj, writeObj, readObj, hs, hid, hne]
  · exact Ne.symm hne
  · cases si with
    | none =>
      by_cases hs : truthyOpt (getKey (s.objs callerId) "source") <;>
        simp [logMetaSteps, buildEntry, allocObj, writeObj, readObj, hs]
    | some i =>
      by_cases hs : truthyOpt (getKey (s.objs callerId) "source") <;>
        by_cases hid : i.id = "" <;>
          simp [logMetaSteps, buildEntry, allocObj, writeObj, readObj, hs, hid]

theorem c10_witness :
    readObj (logMetaSteps demoStore 0 none 4).1 0 = readObj demoStore 0
    ∧ (logMetaSteps demoStore 0 none 4).2 ≠ 0
    ∧ readObj (logMetaSteps demoStore 0 none 4).1 (logMetaSteps demoStore 0 none 4).2
        = (buildEntry defaultOptions none 4 0 "info" "m" (readObj demoStore 0)
            none).metadata :=
  c10_caller_metadata_preserved demoStore 0 none 4 defaultOptions 0 "info" "m" none
    (by decide)

end LogVault
